import Mathlib

/-!
# MiniRTOS primitive layer: a shallow embedding

This file embeds the primitive layer of the MiniRTOS desktop simulation
(`rtos_app.cpp` / `MiniRTOS.h`) in Lean and proves the specified
properties about it:

* `MiniRTOS.Queue` — a thread-safe FIFO (`std::queue` guarded by a mutex
  and a condition variable).  The queue contents are modelled as a
  `List`; `send` appends at the tail, `receive` removes the head.  Since
  the mutex serialises every `send`/`receive`, a single-receiver
  execution is a sequence of atomic queue operations, which is exactly
  what the list model captures.  Items that other threads send while a
  `receive` is blocked inside `wait`/`wait_for` are passed explicitly as
  the `arrivals` argument.
* `MiniRTOS.Task` — a wrapper around `std::thread`.  The relevant state
  is whether the `thread_` member has an associated thread
  (`joinable()`), the `running_` flag, and the lifecycle phase of the
  body.
* `MiniRTOS.Kernel` — `delay` (`sleep_for`) and `getTickCount`
  (steady-clock milliseconds cast to `uint32_t`).  Time is modelled as
  the number of steady-clock milliseconds since the (process-start)
  epoch, a natural number that never decreases.
* `vJitterTask` — the 100 Hz jitter-measurement loop.  One loop
  iteration becomes `jitterCycle`; the actual wake-up instants are
  environment inputs.  Time is measured in microseconds (the unit in
  which the loop accounts jitter); the 10 ms period is `jitterPeriod`.
-/

namespace MiniRTOS

/-- The contents of a `MiniRTOS::Queue<T>`: the `std::queue<T> queue_`
member, head first.  The mutex and condition variable serialise access,
so the observable state is just this sequence. -/
abbrev Queue (α : Type) : Type := List α

/-- Model of `Queue::send`: `queue_.push(item)` appends `item` at the tail
(and notifies one waiting receiver). -/
def Queue.send {α : Type} (q : Queue α) (item : α) : Queue α :=
  q ++ [item]

/-- Result of one `Queue::receive` call.  The C++ function returns
`true` and writes the item through the out-parameter, or returns
`false` on timeout; a call with a negative timeout whose wait predicate
never becomes true simply never returns.  Each constructor also records
the queue contents after the call. -/
inductive RecvResult (α : Type) where
  | received (item : α) (queueAfter : Queue α)
  | timeout (queueAfter : Queue α)
  | blockedForever
  deriving DecidableEq, Repr

/-- Holds (`true`) iff the call returned `false` (the timeout outcome). -/
def RecvResult.isTimeout {α : Type} : RecvResult α → Bool
  | .timeout _ => true
  | _ => false

/-- Model of `Queue::receive(item, timeout_ms)` (default `timeout_ms = -1`).

`q` is the queue content when the call takes the lock and `arrivals`
lists the items sent, in send order, while the call is blocked in
`wait`/`wait_for` (for a timed wait: within the timeout window); with a
single receiver the woken call therefore sees `q ++ arrivals`.

* `timeout_ms < 0`: `wait` until the queue is non-empty, then pop the
  front; if no item is ever available the wait never ends.
* `timeout_ms ≥ 0`: `wait_for` with the non-empty predicate; if it
  yields `true` pop the front and return `true`, otherwise return
  `false` leaving the queue untouched (an empty `arrivals` means the
  timeout elapsed with nothing sent). -/
def Queue.receive {α : Type} (q : Queue α) (timeout_ms : Int)
    (arrivals : Queue α) : RecvResult α :=
  if timeout_ms < 0 then
    match q ++ arrivals with
    | [] => .blockedForever
    | x :: xs => .received x xs
  else
    match q ++ arrivals with
    | [] => .timeout q
    | x :: xs => .received x xs

/-- A sequence of `send` calls `s1 … sn`, oldest first. -/
def Queue.sendAll {α : Type} (q : Queue α) (items : List α) : Queue α :=
  items.foldl Queue.send q

/-- Performs `n` back-to-back blocking `receive` calls (default timeout `-1`,
nothing sent concurrently), returning the received items in order
together with the final queue.  Stops early if a call blocks. -/
def Queue.receiveN {α : Type} : Nat → Queue α → List α × Queue α
  | 0, q => ([], q)
  | n + 1, q =>
    match Queue.receive q (-1) [] with
    | .received x rest =>
      let p := Queue.receiveN n rest
      (x :: p.1, p.2)
    | _ => ([], q)

theorem Queue.sendAll_eq_append {α : Type} (items : List α) :
    ∀ q : Queue α, Queue.sendAll q items = q ++ items := by
  induction items with
  | nil => intro q; simp [Queue.sendAll]
  | cons x xs ih =>
    intro q
    simp only [Queue.sendAll, List.foldl_cons] at *
    rw [ih (Queue.send q x)]
    simp [Queue.send]

theorem Queue.receiveN_length {α : Type} (l : List α) :
    Queue.receiveN l.length l = (l, ([] : Queue α)) := by
  induction l with
  | nil => rfl
  | cons x xs ih =>
    simp [Queue.receiveN, Queue.receive, ih]

end MiniRTOS

namespace MiniRTOS

/-- Lifecycle phase of a task body: the spec's
`NotStarted → Running → Ended` state machine. -/
inductive TaskPhase where
  | notStarted
  | running
  | ended
  deriving DecidableEq, Repr

/-- State of a `MiniRTOS::Task`: the constructor arguments `name_` and
`priority_`, the body's lifecycle phase, whether the `thread_` member
has an associated thread (`thread_.joinable()`), and the `running_`
atomic flag.  The body callable `func_` itself is not needed by any
claim and is left out of the state. -/
structure Task where
  name : String
  priority : Int
  phase : TaskPhase
  threadJoinable : Bool
  running : Bool
  deriving DecidableEq, Repr

/-- The constructor `Task(name, priority, func)`: `running_ = false`,
`thread_` default-constructed (no associated thread), body not yet
started. -/
def Task.init (name : String) (priority : Int) : Task :=
  { name := name, priority := priority, phase := TaskPhase.notStarted,
    threadJoinable := false, running := false }

/-- A lifecycle log line printed by the thread body wrapper in
`Task::start`. -/
inductive LogEvent where
  | taskStarted (name : String) (priority : Int)
  | taskEnded (name : String)
  deriving DecidableEq, Repr

/-- Outcome of one `Task::start()` call: either the call returns to the
caller with the updated task state and the log it emitted, or the
process is aborted.  `std::thread`'s move assignment calls
`std::terminate` when the assigned-to thread is still joinable, so
`start` on a task whose thread has not been joined kills the whole
process; no error value ever reaches the caller. -/
inductive StartOutcome where
  | ok (task : Task) (log : List LogEvent)
  | processTerminated
  deriving DecidableEq, Repr

/-- Holds (`true`) iff the `start()` call returns control to its caller at all
(rather than aborting the process). -/
def StartOutcome.returnsToCaller : StartOutcome → Bool
  | .ok _ _ => true
  | .processTerminated => false

/-- The task's lifecycle phase after the call, when the call returns. -/
def StartOutcome.phaseAfter : StartOutcome → Option TaskPhase
  | .ok t _ => some t.phase
  | .processTerminated => none

/-- The log emitted by the call (empty if the process aborted). -/
def StartOutcome.log : StartOutcome → List LogEvent
  | .ok _ lg => lg
  | .processTerminated => []

/-- Model of `Task::start()`: sets `running_ = true`, then assigns a freshly
spawned thread to `thread_`.  If `thread_` is still joinable from an
earlier `start()`, the move assignment calls `std::terminate`.
Otherwise the new thread prints the `Task Started` line carrying the
name and the priority and runs the body, whose phase becomes
`running`. -/
def Task.start (t : Task) : StartOutcome :=
  if t.threadJoinable then
    StartOutcome.processTerminated
  else
    StartOutcome.ok
      { t with running := true, phase := TaskPhase.running,
               threadJoinable := true }
      [LogEvent.taskStarted t.name t.priority]

/-- Call `start()` once more on the same instance (no effect if the
process already aborted). -/
def StartOutcome.andThenStart : StartOutcome → StartOutcome
  | .ok t _ => Task.start t
  | .processTerminated => .processTerminated

/-- Model of `Task::join()`: `if (thread_.joinable()) thread_.join();` — when a
thread is attached, wait until the body has ended and reap the thread;
otherwise do nothing.  (With a body that never returns the wait never
completes; the model describes the state `join` hands back when it
does.) -/
def Task.join (t : Task) : Task :=
  if t.threadJoinable then
    { t with phase := TaskPhase.ended, threadJoinable := false }
  else
    t

/-- A task state with its advisory priority blanked out (set to `0`). -/
def Task.erasePrio (t : Task) : Task :=
  { t with priority := 0 }

/-- A log line with the printed priority blanked out. -/
def LogEvent.erasePrio : LogEvent → LogEvent
  | .taskStarted n _ => .taskStarted n 0
  | .taskEnded n => .taskEnded n

/-- A `start()` outcome with every occurrence of the priority (in the
task state and in the log) blanked out. -/
def StartOutcome.erasePrio : StartOutcome → StartOutcome
  | .ok t lg => .ok t.erasePrio (lg.map LogEvent.erasePrio)
  | .processTerminated => .processTerminated

end MiniRTOS

/-- Claim C1.  Sends `s1 … sn` on one queue followed by receives hand the
items back in exactly the order `s1 … sn`: starting from an empty
queue, after sending the list `l` the next `l.length` blocking receives
return precisely `l` (no reordering, no drop, no duplication) and drain
the queue. -/
theorem queue_fifo {α : Type} (l : List α) :
    MiniRTOS.Queue.receiveN l.length (MiniRTOS.Queue.sendAll [] l)
      = (l, ([] : MiniRTOS.Queue α)) := by
  rw [MiniRTOS.Queue.sendAll_eq_append, List.nil_append]
  exact MiniRTOS.Queue.receiveN_length l

/-- Claim C3.  A timed `receive` on an empty queue whose timeout elapses
with no item having arrived returns the Timeout outcome as an ordinary
value (the function's `Bool` result, not an exception), consumes
nothing, and leaves the queue empty. -/
theorem receive_timeout_empty (α : Type) (t : Int) (ht : 0 ≤ t) :
    MiniRTOS.Queue.receive ([] : MiniRTOS.Queue α) t []
      = MiniRTOS.RecvResult.timeout [] := by
  simp [MiniRTOS.Queue.receive, not_lt.mpr ht]

/-- Claim C3 witness at timeout `7` with element type `Nat`. -/
theorem receive_timeout_empty_witness :
    (0 : Int) ≤ 7 ∧
      MiniRTOS.Queue.receive ([] : MiniRTOS.Queue Nat) 7 []
        = MiniRTOS.RecvResult.timeout [] :=
  ⟨by decide, receive_timeout_empty Nat 7 (by decide)⟩

/-- Claim C10.  Any negative `timeout_ms` (not only the default `-1`)
selects the indefinite-wait branch: the call can never produce the
Timeout outcome and behaves exactly like the default blocking call.
Contrapositively, Timeout is possible only when the timeout is `≥ 0`. -/
theorem receive_negative_timeout {α : Type} (q arrivals : MiniRTOS.Queue α)
    (t : Int) (ht : t < 0) :
    (MiniRTOS.Queue.receive q t arrivals).isTimeout = false ∧
      MiniRTOS.Queue.receive q t arrivals
        = MiniRTOS.Queue.receive q (-1) arrivals := by
  constructor
  · simp only [MiniRTOS.Queue.receive, if_pos ht]
    cases q ++ arrivals <;> rfl
  · simp [MiniRTOS.Queue.receive, if_pos ht]

/-- Claim C10 witness at timeout `-5` on the one-element queue `[3]`. -/
theorem receive_negative_timeout_witness :
    (-5 : Int) < 0 ∧
      ((MiniRTOS.Queue.receive [3] (-5) ([] : MiniRTOS.Queue Nat)).isTimeout
          = false ∧
        MiniRTOS.Queue.receive [3] (-5) ([] : MiniRTOS.Queue Nat)
          = MiniRTOS.Queue.receive [3] (-1) []) :=
  ⟨by decide, receive_negative_timeout [3] [] (-5) (by decide)⟩

/-- Claim C2 counterexample.  On a freshly constructed task, the first
`start()` returns to its caller, but the second `start()` does not
signal a DoubleStart error to the caller: `Task::start` performs no
started-already check, so reassigning the still-joinable
`std::thread` member calls `std::terminate` and the whole process
aborts — no error value is ever delivered. -/
theorem start_twice_terminates_process :
    ((MiniRTOS.Task.init "Sensor" 1).start).returnsToCaller = true ∧
      ((MiniRTOS.Task.init "Sensor" 1).start).andThenStart
          = MiniRTOS.StartOutcome.processTerminated ∧
      (((MiniRTOS.Task.init "Sensor" 1).start).andThenStart).returnsToCaller
          = false := by
  decide

/-- Claim C2 amended.  The first `start()` on a freshly constructed task
returns to the caller and transitions the task from not-started to
running; a second `start()` on the same instance does not signal a
DoubleStart error — it aborts the entire process via `std::terminate`
(hence every call after the first also fails to return). -/
theorem start_first_runs_second_aborts (name : String) (prio : Int) :
    ((MiniRTOS.Task.init name prio).start).returnsToCaller = true ∧
      ((MiniRTOS.Task.init name prio).start).phaseAfter
          = some MiniRTOS.TaskPhase.running ∧
      ((MiniRTOS.Task.init name prio).start).andThenStart
          = MiniRTOS.StartOutcome.processTerminated := by
  refine ⟨rfl, rfl, ?_⟩
  simp [MiniRTOS.Task.init, MiniRTOS.Task.start,
    MiniRTOS.StartOutcome.andThenStart]

/-- Claim C7.  `join()` is a total operation on every task state
(`NotStarted`, `Running`, `Ended`): it is idempotent — a second `join`
(a `join` after the thread was already reaped) is a no-op — and when a
thread is attached it waits until the body has `Ended`, while on a
never-started or already-joined task it changes nothing. -/
theorem join_idempotent_total (t : MiniRTOS.Task) :
    MiniRTOS.Task.join (MiniRTOS.Task.join t) = MiniRTOS.Task.join t ∧
      (if t.threadJoinable then
          (MiniRTOS.Task.join t).phase = MiniRTOS.TaskPhase.ended
        else MiniRTOS.Task.join t = t) := by
  by_cases h : t.threadJoinable = true
  · simp [MiniRTOS.Task.join, h]
  · simp only [Bool.not_eq_true] at h
    simp [MiniRTOS.Task.join, h]

/-- Claim C9.  Noninterference in the advisory priority: two tasks that
differ only in their priority have identical `start()` and `join()`
behaviour once the priority value itself (the field and the number
printed in the `Task Started` log line) is blanked out.  The priority
reaches nothing else: `Queue.send`/`Queue.receive` and
`Kernel.delay`/`Kernel.getTickCount` do not even take a task or a
priority as input. -/
theorem priority_noninterference (t : MiniRTOS.Task) (p1 p2 : Int) :
    (MiniRTOS.Task.start { t with priority := p1 }).erasePrio
        = (MiniRTOS.Task.start { t with priority := p2 }).erasePrio ∧
      (MiniRTOS.Task.join { t with priority := p1 }).erasePrio
        = (MiniRTOS.Task.join { t with priority := p2 }).erasePrio := by
  constructor
  · by_cases h : t.threadJoinable = true
    · simp [MiniRTOS.Task.start, h]
    · simp only [Bool.not_eq_true] at h
      simp [MiniRTOS.Task.start, h, MiniRTOS.StartOutcome.erasePrio,
        MiniRTOS.Task.erasePrio, MiniRTOS.LogEvent.erasePrio]
  · by_cases h : t.threadJoinable = true
    · simp [MiniRTOS.Task.join, h, MiniRTOS.Task.erasePrio]
    · simp only [Bool.not_eq_true] at h
      simp [MiniRTOS.Task.join, h, MiniRTOS.Task.erasePrio]

namespace MiniRTOS

/-- Model of `Kernel::delay(ms)`: `sleep_for(milliseconds(ms))` suspends the
caller for at least `max ms 0` milliseconds (a non-positive duration is
satisfied immediately) and throws nothing.  The model maps the current
steady-clock millisecond count to the earliest possible resumption
instant; `Int.toNat` is exactly `max ms 0` for the `Int` argument.  The
return type `Nat` (no `Option`/`Except`) reflects that no error is ever
signalled. -/
def Kernel.delay (nowMs : Nat) (ms : Int) : Nat :=
  nowMs + ms.toNat

/-- Model of `Kernel::getTickCount()`: the steady-clock time since epoch,
truncated to whole milliseconds, cast to `uint32_t` — i.e. reduced
modulo `2^32`.  `steadyMs` is the underlying millisecond count, which
is non-decreasing across calls (steady clock). -/
def Kernel.getTickCount (steadyMs : Nat) : Nat :=
  steadyMs % 4294967296

end MiniRTOS

namespace MiniRTOS

/-- The fixed period of `vJitterTask`'s loop, `milliseconds(10)`,
expressed in the loop's accounting unit (microseconds, the unit in
which jitter is accumulated): 10 000 µs for the 100 Hz loop. -/
def jitterPeriod : Int := 10000

/-- The local state of `vJitterTask`'s loop: `next_wake_time` (an
absolute steady-clock instant, in microseconds since an arbitrary
origin), `max_jitter`, `total_jitter` and `count`. -/
structure JitterState where
  nextWake : Int
  maxJitter : Int
  totalJitter : Int
  count : Int
  deriving DecidableEq, Repr

/-- The loop state right before the first iteration:
`next_wake_time = steady_clock::now()` (the start instant) and all
accumulators zero. -/
def jitterInit (start : Int) : JitterState :=
  { nextWake := start, maxJitter := 0, totalJitter := 0, count := 0 }

/-- One iteration of `vJitterTask`'s `while (true)` loop.  `actualTime`
is the instant `steady_clock::now()` observed after `sleep_until`
returns — an environment input.  Mirrors the body line by line:
advance `next_wake_time` by the period, measure
`jitter = actual - next_wake_time`, clamp negatives to zero, update the
running max and sum, and on the 100th sample emit
`(max_jitter, total_jitter / count)` and reset the accumulators.
`Int.tdiv` is C++ integer division (truncation toward zero; on the
non-negative values reached here it is plain division). -/
def jitterCycle (s : JitterState) (actualTime : Int) :
    JitterState × Option (Int × Int) :=
  let nw := s.nextWake + jitterPeriod
  let j0 := actualTime - nw
  let j := if j0 < 0 then 0 else j0
  let m := if j > s.maxJitter then j else s.maxJitter
  let tot := s.totalJitter + j
  let c := s.count + 1
  if c ≥ 100 then
    ({ nextWake := nw, maxJitter := 0, totalJitter := 0, count := 0 },
      some (m, Int.tdiv tot c))
  else
    ({ nextWake := nw, maxJitter := m, totalJitter := tot, count := c },
      none)

/-- Run the loop through one iteration per element of `actuals` (the
successive observed wake instants), collecting every emitted
`(max, mean)` window summary in order. -/
def jitterRun (s : JitterState) : List Int → JitterState × List (Int × Int)
  | [] => (s, [])
  | a :: as =>
    let p := jitterCycle s a
    let q := jitterRun p.1 as
    (q.1, p.2.toList ++ q.2)

/-- The lateness of one cycle whose ideal wake instant is
`nextWake + jitterPeriod`, clamped at zero exactly as the loop clamps
it. -/
def lateness (nextWake actualTime : Int) : Int :=
  if actualTime - (nextWake + jitterPeriod) < 0 then 0
  else actualTime - (nextWake + jitterPeriod)

/-- The per-cycle latenesses `l1, l2, …` of a run: cycle `i` is
measured against the drift-free ideal instant `nextWake + i·period`.
This is the observable the window statistics are stated over. -/
def latenessList (nextWake : Int) : List Int → List Int
  | [] => []
  | a :: as => lateness nextWake a :: latenessList (nextWake + jitterPeriod) as

theorem if_gt_eq_max (m0 j : Int) : (if j > m0 then j else m0) = max m0 j := by
  rcases le_total j m0 with h | h
  · rw [if_neg (not_lt.mpr h), max_eq_left h]
  · rw [max_eq_right h]
    rcases lt_or_eq_of_le h with h' | h'
    · rw [if_pos h']
    · rw [if_neg (by omega), h']

theorem jitterCycle_nextWake (s : JitterState) (a : Int) :
    (jitterCycle s a).1.nextWake = s.nextWake + jitterPeriod := by
  simp only [jitterCycle]
  split <;> rfl

theorem jitterCycle_acc (s : JitterState) (a : Int) (h : s.count + 1 < 100) :
    jitterCycle s a
      = ({ nextWake := s.nextWake + jitterPeriod,
           maxJitter := max s.maxJitter (lateness s.nextWake a),
           totalJitter := s.totalJitter + lateness s.nextWake a,
           count := s.count + 1 }, none) := by
  simp only [jitterCycle, lateness, if_neg (not_le.mpr h), if_gt_eq_max]

theorem jitterCycle_emit (s : JitterState) (a : Int) (h : s.count + 1 = 100) :
    jitterCycle s a
      = ({ nextWake := s.nextWake + jitterPeriod, maxJitter := 0,
           totalJitter := 0, count := 0 },
          some (max s.maxJitter (lateness s.nextWake a),
            Int.tdiv (s.totalJitter + lateness s.nextWake a) 100)) := by
  simp only [jitterCycle, lateness, if_gt_eq_max, h]
  norm_num

theorem jitterRun_nextWake (as : List Int) :
    ∀ s : JitterState,
      (jitterRun s as).1.nextWake
        = s.nextWake + (as.length : Int) * jitterPeriod := by
  induction as with
  | nil => intro s; simp [jitterRun]
  | cons a as ih =>
    intro s
    simp only [jitterRun, ih, jitterCycle_nextWake, List.length_cons]
    push_cast
    ring

theorem jitterRun_window (as : List Int) :
    ∀ s : JitterState, as ≠ [] → s.count + (as.length : Int) = 100 →
      jitterRun s as
        = ({ nextWake := s.nextWake + (as.length : Int) * jitterPeriod,
             maxJitter := 0, totalJitter := 0, count := 0 },
           [((latenessList s.nextWake as).foldl max s.maxJitter,
             Int.tdiv (s.totalJitter + (latenessList s.nextWake as).sum)
               100)]) := by
  induction as with
  | nil => intro s hne _; exact absurd rfl hne
  | cons a as ih =>
    intro s _ hcount
    by_cases has : as = []
    · subst has
      have hc : s.count + 1 = 100 := by simpa using hcount
      simp [jitterRun, jitterCycle_emit s a hc, latenessList]
    · have hlt : s.count + 1 < 100 := by
        rcases List.exists_cons_of_ne_nil has with ⟨b, bs, rfl⟩
        simp only [List.length_cons] at hcount
        push_cast at hcount
        omega
      have hcount1 :
          ({ nextWake := s.nextWake + jitterPeriod,
             maxJitter := max s.maxJitter (lateness s.nextWake a),
             totalJitter := s.totalJitter + lateness s.nextWake a,
             count := s.count + 1 } : JitterState).count + (as.length : Int)
            = 100 := by
        simp only [List.length_cons] at hcount
        push_cast at hcount ⊢
        omega
      have hrw : jitterRun s (a :: as)
          = ((jitterRun
                ({ nextWake := s.nextWake + jitterPeriod,
                   maxJitter := max s.maxJitter (lateness s.nextWake a),
                   totalJitter := s.totalJitter + lateness s.nextWake a,
                   count := s.count + 1 } : JitterState) as).1,
             (jitterRun
                ({ nextWake := s.nextWake + jitterPeriod,
                   maxJitter := max s.maxJitter (lateness s.nextWake a),
                   totalJitter := s.totalJitter + lateness s.nextWake a,
                   count := s.count + 1 } : JitterState) as).2) := by
        conv_lhs => rw [jitterRun]
        rw [jitterCycle_acc s a hlt]
        rfl
      rw [hrw, ih _ has hcount1]
      simp only [latenessList, List.foldl_cons, List.sum_cons, List.length_cons,
        Prod.mk.injEq, JitterState.mk.injEq, List.cons.injEq]
      push_cast
      refine ⟨⟨by ring, trivial, trivial, trivial⟩, ⟨trivial, ?_⟩, trivial⟩
      rw [add_assoc]

end MiniRTOS

/-- Claim C8.  `delay` with a non-positive duration is a no-op: the
caller resumes at the very instant it called.  (That `delay` never
signals an error for any argument is embedded in its type: it returns a
plain `Nat` with no error channel, matching `sleep_for`'s no-throw
contract.) -/
theorem delay_nonpositive_noop (nowMs : Nat) (ms : Int) (h : ms ≤ 0) :
    MiniRTOS.Kernel.delay nowMs ms = nowMs := by
  simp [MiniRTOS.Kernel.delay, Int.toNat_of_nonpos h]

/-- Claim C8 witness: `delay(-3)` at tick 5 resumes at tick 5. -/
theorem delay_nonpositive_noop_witness :
    (-3 : Int) ≤ 0 ∧ MiniRTOS.Kernel.delay 5 (-3) = 5 :=
  ⟨by decide, delay_nonpositive_noop 5 (-3) (by decide)⟩

/-- Claim C6 counterexample.  `getTickCount` is not monotonic: the
`uint32_t` cast wraps after `2^32` milliseconds (about 49.7 days), so a
later call can return a smaller value, and two samples separated by a
`delay(2000)` can differ by less than 2000 — here the later sample is
even smaller than the earlier one. -/
theorem tick_count_wraps :
    4294967295 ≤ 4294967296 ∧
      MiniRTOS.Kernel.getTickCount 4294967296
          < MiniRTOS.Kernel.getTickCount 4294967295 ∧
      MiniRTOS.Kernel.getTickCount 4294967296 = 0 ∧
      MiniRTOS.Kernel.getTickCount (MiniRTOS.Kernel.delay 4294966296 2000)
          < MiniRTOS.Kernel.getTickCount 4294966296 := by
  decide

/-- Claim C6 amended.  `getTickCount` is monotonic modulo the 32-bit
wrap: as long as the underlying steady-clock millisecond count stays
below `2^32` (about 49.7 days of uptime), a later call never returns a
smaller tick count, and two samples separated by an intervening
`delay(D)` differ by at least `D`. -/
theorem tick_count_monotone_before_wrap (m1 m2 : Nat) (D : Int)
    (h12 : m1 ≤ m2) (h2 : m2 < 4294967296)
    (hD : MiniRTOS.Kernel.delay m1 D ≤ m2) :
    MiniRTOS.Kernel.getTickCount m1 ≤ MiniRTOS.Kernel.getTickCount m2 ∧
      MiniRTOS.Kernel.getTickCount m1 + D.toNat
        ≤ MiniRTOS.Kernel.getTickCount m2 := by
  have h1 : m1 < 4294967296 := lt_of_le_of_lt h12 h2
  unfold MiniRTOS.Kernel.getTickCount
  rw [Nat.mod_eq_of_lt h1, Nat.mod_eq_of_lt h2]
  unfold MiniRTOS.Kernel.delay at hD
  omega

/-- Claim C6 amended witness: samples at 100 ms and 350 ms separated by a
`delay(200)` differ by at least 200. -/
theorem tick_count_monotone_before_wrap_witness :
    (100 : Nat) ≤ 350 ∧ (350 : Nat) < 4294967296 ∧
      MiniRTOS.Kernel.delay 100 200 ≤ 350 ∧
      (MiniRTOS.Kernel.getTickCount 100 ≤ MiniRTOS.Kernel.getTickCount 350 ∧
        MiniRTOS.Kernel.getTickCount 100 + (200 : Int).toNat
          ≤ MiniRTOS.Kernel.getTickCount 350) :=
  ⟨by decide, by decide, by decide,
    tick_count_monotone_before_wrap 100 350 200 (by decide) (by decide)
      (by decide)⟩

/-- Claim C4.  The jitter loop's ideal next-wake time is drift-free: each
cycle advances it by exactly one period from the previous ideal value
(`next_wake_time += period`, never `now + period`), the first cycle's
ideal wake is the start instant plus one period, and hence after `k`
cycles the ideal wake time is `start + k·period` no matter how late any
actual wake (`as`) was. -/
theorem jitter_ideal_wake_drift_free (start : Int) (as : List Int) :
    (∀ (s : MiniRTOS.JitterState) (a : Int),
        (MiniRTOS.jitterCycle s a).1.nextWake
          = s.nextWake + MiniRTOS.jitterPeriod) ∧
      (MiniRTOS.jitterRun (MiniRTOS.jitterInit start) as).1.nextWake
        = start + (as.length : Int) * MiniRTOS.jitterPeriod := by
  refine ⟨MiniRTOS.jitterCycle_nextWake, ?_⟩
  rw [MiniRTOS.jitterRun_nextWake]
  rfl

/-- Claim C5.  A full window of exactly 100 cycles with per-cycle
latenesses `l1 … l100` (the clamped-at-zero deviations from the
drift-free ideal wake instants, `latenessList`) emits exactly one
summary: max lateness `= max(l1, …, l100)` (the fold of `max` from `0`,
which over these non-negative values is their maximum) and mean
lateness `= (l1 + … + l100) / 100` (C++ integer division, the divisor
being the full window size `N = 100`), and then resets all three
accumulators — max, sum and count — to zero for the next window. -/
theorem jitter_window_stats (start : Int) (as : List Int)
    (h : as.length = 100) :
    MiniRTOS.jitterRun (MiniRTOS.jitterInit start) as
      = ({ nextWake := start + 100 * MiniRTOS.jitterPeriod, maxJitter := 0,
           totalJitter := 0, count := 0 },
         [((MiniRTOS.latenessList start as).foldl max 0,
           Int.tdiv (MiniRTOS.latenessList start as).sum 100)]) := by
  have h1 : as ≠ [] := by
    rintro rfl
    simp at h
  have h2 : (MiniRTOS.jitterInit start).count + (as.length : Int) = 100 := by
    simp [MiniRTOS.jitterInit, h]
  rw [MiniRTOS.jitterRun_window as (MiniRTOS.jitterInit start) h1 h2]
  simp [MiniRTOS.jitterInit, h]

/-- Claim C5 witness: a window of 100 perfectly punctual cycles. -/
theorem jitter_window_stats_witness :
    (List.replicate 100 (0 : Int)).length = 100 ∧
      MiniRTOS.jitterRun (MiniRTOS.jitterInit 0) (List.replicate 100 (0 : Int))
        = ({ nextWake := 0 + 100 * MiniRTOS.jitterPeriod, maxJitter := 0,
             totalJitter := 0, count := 0 },
           [((MiniRTOS.latenessList 0 (List.replicate 100 (0 : Int))).foldl
               max 0,
             Int.tdiv
               (MiniRTOS.latenessList 0 (List.replicate 100 (0 : Int))).sum
               100)]) :=
  ⟨by simp, jitter_window_stats 0 _ (by simp)⟩
